import Mathlib

/-!
# Verification of the getit transfer engine against its specification

Shallow embedding of the components of the `getit` repository that the
claims concern, together with theorems settling each claim:

* `Pacer` (src/getit/utils/pacer.py): backoff computation and wait-page
  handling.
* `HTTPClient` retry wrapper (src/getit/utils/http.py): classification of
  HTTP failures, Retry-After handling, backoff, exhaustion.
* `DownloadManager` (src/getit/core/manager.py): the outer whole-task
  retry loop and output-path allocation.
* `TaskRegistry` (src/getit/tasks.py): schema creation and `list_active`.
* `sanitize_filename` (src/getit/utils/sanitize.py).
* Counter-mode stream decryption used for resumed encrypted transfers
  (the `FileDownloader` module is not present in the source tree; its
  decryption behaviour is modelled from the specification), keyed by the
  parameters built by `MegaExtractor._build_encryption_params`
  (src/getit/extractors/mega.py).

Randomness (`random.uniform`) is made explicit: every function that
draws a random number takes the drawn sample as an argument, and the
theorems quantify over samples within the interval the source draws
from.  Float arithmetic is embedded as exact rational arithmetic.
-/

namespace Getit

/-! ## Pacer (src/getit/utils/pacer.py) -/

/-- Configuration of `Pacer.__init__`: `min_backoff` (default 0.4),
`max_backoff` (default 5.0), `flood_sleep` (default 30.0) and
`jitter_factor` (default 0.1), embedded as exact rationals. -/
structure Pacer where
  min_backoff : ℚ := 2/5
  max_backoff : ℚ := 5
  flood_sleep : ℚ := 30
  jitter_factor : ℚ := 1/10
deriving Repr, DecidableEq

/-- `Pacer.calculate_backoff(attempt)`:
`base_delay = min_backoff * 2**attempt`;
`capped_delay = min(base_delay, max_backoff)`;
`jitter = 1.0 + random.uniform(-jitter_factor, jitter_factor)`;
result `capped_delay * jitter`.  The value drawn by `random.uniform`
is passed explicitly as `sample`; the source draws it from
`[-jitter_factor, jitter_factor]`. -/
def Pacer.calculate_backoff (p : Pacer) (attempt : ℕ) (sample : ℚ) : ℚ :=
  let base_delay := p.min_backoff * 2 ^ attempt
  let capped_delay := min base_delay p.max_backoff
  let jitter := 1 + sample
  capped_delay * jitter

/-- Expected value of `Pacer.calculate_backoff` over the uniform sample:
the delay is linear in the sample and `random.uniform(-j, j)` has mean 0,
so the expectation is the capped delay times the factor 1. -/
def Pacer.expected_backoff (p : Pacer) (attempt : ℕ) : ℚ :=
  min (p.min_backoff * 2 ^ attempt) p.max_backoff

/-- `Pacer.parse_and_wait(html, max_wait)`, parametrised by the already
parsed result `wait_time` of `Pacer.parse_wait_time(html)` (`none` when
no pattern matched).  The source returns a `bool` and never raises; the
embedding returns `Except` to make visible that no error is surfaced:
`.ok (b, s)` means the call returned `b` after sleeping `s` seconds
(`none` = no sleep at all, `some d` = `asyncio.sleep(d)`). -/
def Pacer.parse_and_wait (wait_time : Option ℚ) (max_wait : ℚ) :
    Except String (Bool × Option ℚ) :=
  match wait_time with
  | none => .ok (false, none)
  | some w =>
    if w > max_wait then .ok (false, none)
    else if w ≤ 0 then .ok (false, none)
    else .ok (true, some (w + 1))

/-! ## Theorems for claim C6 -/

/-- **C6.** For every attempt and every jitter factor in `[0,1]` with
nonnegative backoff bounds, and every uniform sample in
`[-jitter, jitter]`: the backoff equals
`min(min_backoff * 2^attempt, max_backoff)` times a factor `1 + sample`
lying in `[1-jitter, 1+jitter]`; it is at most
`max_backoff * (1 + jitter)`; the expectation (midpoint over the
uniform sample, the delay being linear in the sample) is
`min(min_backoff * 2^attempt, max_backoff)` and is monotonically
non-decreasing in the attempt. -/
theorem pacer_backoff_bounds (p : Pacer) (attempt : ℕ) (sample : ℚ)
    (hmin : 0 ≤ p.min_backoff) (hmax : 0 ≤ p.max_backoff)
    (hj0 : 0 ≤ p.jitter_factor) (hj1 : p.jitter_factor ≤ 1)
    (hs1 : -p.jitter_factor ≤ sample) (hs2 : sample ≤ p.jitter_factor) :
    p.calculate_backoff attempt sample
        = min (p.min_backoff * 2 ^ attempt) p.max_backoff * (1 + sample)
      ∧ 1 - p.jitter_factor ≤ 1 + sample
      ∧ 1 + sample ≤ 1 + p.jitter_factor
      ∧ p.calculate_backoff attempt sample
        ≤ p.max_backoff * (1 + p.jitter_factor)
      ∧ (p.calculate_backoff attempt (-p.jitter_factor)
          + p.calculate_backoff attempt p.jitter_factor) / 2
        = p.expected_backoff attempt
      ∧ p.expected_backoff attempt ≤ p.expected_backoff (attempt + 1) := by
  have hbase : 0 ≤ p.min_backoff * 2 ^ attempt :=
    mul_nonneg hmin (by positivity)
  have hcap0 : 0 ≤ min (p.min_backoff * 2 ^ attempt) p.max_backoff :=
    le_min hbase hmax
  have hcapM : min (p.min_backoff * 2 ^ attempt) p.max_backoff ≤ p.max_backoff :=
    min_le_right _ _
  refine ⟨rfl, by linarith, by linarith, ?_, ?_, ?_⟩
  · have h1 : 1 + sample ≤ 1 + p.jitter_factor := by linarith
    have h2 : 0 ≤ 1 + sample := by linarith
    calc p.calculate_backoff attempt sample
        = min (p.min_backoff * 2 ^ attempt) p.max_backoff * (1 + sample) := rfl
      _ ≤ p.max_backoff * (1 + p.jitter_factor) := by
          exact mul_le_mul hcapM h1 h2 hmax
  · show (min (p.min_backoff * 2 ^ attempt) p.max_backoff * (1 + -p.jitter_factor)
      + min (p.min_backoff * 2 ^ attempt) p.max_backoff * (1 + p.jitter_factor)) / 2
      = min (p.min_backoff * 2 ^ attempt) p.max_backoff
    ring
  · have hmono : p.min_backoff * 2 ^ attempt ≤ p.min_backoff * 2 ^ (attempt + 1) := by
      have : (2 : ℚ) ^ attempt ≤ 2 ^ (attempt + 1) := by
        have h2a : (0 : ℚ) ≤ 2 ^ attempt := by positivity
        rw [pow_succ]
        nlinarith
      exact mul_le_mul_of_nonneg_left this hmin
    exact min_le_min hmono le_rfl

/-- Witness for `pacer_backoff_bounds` at the default Pacer
configuration, attempt 3 and sample 1/10. -/
theorem pacer_backoff_bounds_witness :
    ((0 : ℚ) ≤ 2/5 ∧ (0 : ℚ) ≤ 5 ∧ (0 : ℚ) ≤ 1/10 ∧ (1/10 : ℚ) ≤ 1
       ∧ -(1/10 : ℚ) ≤ 1/10 ∧ (1/10 : ℚ) ≤ 1/10)
    ∧ (Pacer.calculate_backoff {} 3 (1/10)
        = min ((2/5 : ℚ) * 2 ^ 3) 5 * (1 + 1/10)
      ∧ 1 - (1/10 : ℚ) ≤ 1 + 1/10
      ∧ 1 + (1/10 : ℚ) ≤ 1 + 1/10
      ∧ Pacer.calculate_backoff {} 3 (1/10) ≤ 5 * (1 + 1/10)
      ∧ (Pacer.calculate_backoff {} 3 (-(1/10))
          + Pacer.calculate_backoff {} 3 (1/10)) / 2
        = Pacer.expected_backoff {} 3
      ∧ Pacer.expected_backoff {} 3 ≤ Pacer.expected_backoff {} 4) := by
  constructor
  · refine ⟨by norm_num, by norm_num, by norm_num, by norm_num, by norm_num, le_rfl⟩
  · exact pacer_backoff_bounds {} 3 (1/10) (by norm_num) (by norm_num)
      (by norm_num) (by norm_num) (by norm_num) (by norm_num)

/-! ## Theorems for claim C7 -/

/-- **C7, counterexample.** The claim asserts that when the parsed wait
time exceeds `max_wait`, a terminal error is surfaced.  In the source,
`Pacer.parse_and_wait` merely logs a warning and returns `False`
("skipping") without sleeping: at wait time 400 and `max_wait` 300 the
call returns normally with `False` and no sleep — the very same
observable outcome as when no wait time is found at all — and no error
is ever produced. -/
theorem parse_and_wait_long_wait_not_error :
    Pacer.parse_and_wait (some 400) 300 = .ok (false, none)
      ∧ (∀ msg, Pacer.parse_and_wait (some 400) 300 ≠ .error msg)
      ∧ Pacer.parse_and_wait (some 400) 300 = Pacer.parse_and_wait none 300 := by
  refine ⟨by norm_num [Pacer.parse_and_wait], ?_, by norm_num [Pacer.parse_and_wait]⟩
  intro msg h
  rw [show Pacer.parse_and_wait (some 400) 300 = .ok (false, none) by
    norm_num [Pacer.parse_and_wait]] at h
  exact Except.noConfusion h

/-- **C7, amended.** If a wait time `w` with `0 < w ≤ max_wait` is
found, the caller sleeps `w + 1` seconds and the call reports `True`
(a wait was performed).  If the found wait time exceeds `max_wait`
(or is `≤ 0`), the call performs no sleep and returns `False` without
surfacing any error — the long wait is skipped, indistinguishable from
the case in which no wait time was found. -/
theorem parse_and_wait_spec (w max_wait : ℚ) :
    (0 < w → w ≤ max_wait → Pacer.parse_and_wait (some w) max_wait
        = .ok (true, some (w + 1)))
      ∧ (max_wait < w → Pacer.parse_and_wait (some w) max_wait = .ok (false, none))
      ∧ (w ≤ 0 → Pacer.parse_and_wait (some w) max_wait = .ok (false, none))
      ∧ Pacer.parse_and_wait none max_wait = .ok (false, none)
      ∧ (∀ msg, Pacer.parse_and_wait (some w) max_wait ≠ .error msg) := by
  refine ⟨?_, ?_, ?_, rfl, ?_⟩
  · intro h0 hle
    simp only [Pacer.parse_and_wait]
    rw [if_neg (by linarith), if_neg (by linarith)]
  · intro hgt
    simp only [Pacer.parse_and_wait]
    rw [if_pos (by linarith)]
  · intro hle
    simp only [Pacer.parse_and_wait]
    by_cases hgt : w > max_wait
    · rw [if_pos hgt]
    · rw [if_neg hgt, if_pos hle]
  · intro msg
    simp only [Pacer.parse_and_wait]
    by_cases hgt : w > max_wait
    · rw [if_pos hgt]; exact fun h => Except.noConfusion h
    · rw [if_neg hgt]
      by_cases hle : w ≤ 0
      · rw [if_pos hle]; exact fun h => Except.noConfusion h
      · rw [if_neg hle]; exact fun h => Except.noConfusion h

/-- Witness for `parse_and_wait_spec` at `w = 30`, `max_wait = 300`. -/
theorem parse_and_wait_spec_witness :
    ((0 : ℚ) < 30 ∧ (30 : ℚ) ≤ 300)
      ∧ Pacer.parse_and_wait (some 30) 300 = .ok (true, some (30 + 1)) := by
  refine ⟨⟨by norm_num, by norm_num⟩, ?_⟩
  exact (parse_and_wait_spec 30 300).1 (by norm_num) (by norm_num)

/-! ## HTTPClient retry wrapper (src/getit/utils/http.py) -/

/-- The exceptions `HTTPClient._with_retry` distinguishes.
`clientResponseError status retryAfter` embeds
`aiohttp.ClientResponseError` (raised by `raise_for_status()` on a
non-2xx response), carrying the HTTP status and the parsed
`Retry-After` header (`HTTPClient._parse_retry_after`, `none` when
absent or unparseable).  In aiohttp, `ClientResponseError` is a
subclass of `ClientError`; `otherClientError` embeds every other
`aiohttp.ClientError`, `timeoutError` embeds `asyncio.TimeoutError`,
and `otherException` any remaining exception. -/
inductive ReqError where
  | clientResponseError (status : ℕ) (retryAfter : Option ℚ)
  | otherClientError
  | timeoutError
  | otherException
deriving Repr, DecidableEq

/-- Outcome of awaiting the wrapped coroutine once. -/
inductive ReqOutcome where
  | ok
  | err (e : ReqError)
deriving Repr, DecidableEq

/-- `isinstance(e, aiohttp.ClientError)` — true for
`clientResponseError` because `ClientResponseError` subclasses
`ClientError`. -/
def isClientError : ReqError → Bool
  | .clientResponseError _ _ => true
  | .otherClientError => true
  | _ => false

/-- `isinstance(e, asyncio.TimeoutError)`. -/
def isTimeoutError : ReqError → Bool
  | .timeoutError => true
  | _ => false

/-- The `is_retryable_exception` predicate passed to `_with_retry` by
`HTTPClient.get`, `post`, `get_json` and `get_text`:
`lambda e: isinstance(e, (aiohttp.ClientError, asyncio.TimeoutError))`. -/
def defaultRetryable (e : ReqError) : Bool := isClientError e || isTimeoutError e

/-- `HTTPClient._calculate_backoff(attempt, retry_after)`:
if `retry_after` is present, `min(retry_after, 60.0)`; otherwise
`base_delay = 2**attempt`, `jitter = random.uniform(0, 0.5) * base_delay`,
`min(base_delay + jitter, 60.0)`.  The value drawn by `random.uniform`
is passed explicitly as `sample` (drawn from `[0, 0.5]`). -/
def calculate_backoff (attempt : ℕ) (retry_after : Option ℚ) (sample : ℚ) : ℚ :=
  match retry_after with
  | some ra => min ra 60
  | none => min (2 ^ attempt + sample * 2 ^ attempt) 60

/-- Result of `_with_retry`: normal return, `RateLimitError` carrying
the last parsed `Retry-After` (raised after exhausting retries on 429),
a non-retryable exception re-raised as-is, or the generic
"Request failed after N retries" exception after exhaustion. -/
inductive RetryResult where
  | success
  | rateLimited (retryAfter : Option ℚ)
  | raised (e : ReqError)
  | exhausted (e : ReqError)
deriving Repr, DecidableEq

/-- Observable events of one `_with_retry` call: the attempts made and
the `asyncio.sleep(backoff)` calls between them. -/
inductive RetryEvent where
  | attempt (i : ℕ)
  | sleep (seconds : ℚ)
deriving Repr, DecidableEq

/-- `HTTPClient._with_retry`, unrolled from loop iteration `attempt`
(the loop runs `for attempt in range(self._max_retries + 1)`).
`f i` is the outcome of awaiting the coroutine on iteration `i` and
`sample i` the jitter drawn by `_calculate_backoff` there.  Returns the
result together with the trace of attempts and sleeps.

Branch structure of the source:
a 429 `ClientResponseError` parses `Retry-After` and, with budget left,
sleeps `_calculate_backoff(attempt, retry_after)` and retries, else
raises `RateLimitError`; any other exception first consults
`is_retryable_exception` (raising it unchanged when not retryable —
note a non-429 4xx `ClientResponseError` *is* retryable under
`defaultRetryable`), then with budget left sleeps
`_calculate_backoff(attempt)` and retries, else raises the generic
exhaustion error. -/
def withRetryFrom (f : ℕ → ReqOutcome) (sample : ℕ → ℚ)
    (is_retryable : ReqError → Bool) (max_retries : ℕ) (attempt : ℕ) :
    RetryResult × List RetryEvent :=
  match f attempt with
  | .ok => (.success, [.attempt attempt])
  | .err e =>
    match e with
    | .clientResponseError status retryAfter =>
      if status = 429 then
        if h : attempt < max_retries then
          let rest := withRetryFrom f sample is_retryable max_retries (attempt + 1)
          (rest.1, .attempt attempt ::
            .sleep (calculate_backoff attempt retryAfter (sample attempt)) :: rest.2)
        else (.rateLimited retryAfter, [.attempt attempt])
      else if ¬ is_retryable e then (.raised e, [.attempt attempt])
      else if h : attempt < max_retries then
        let rest := withRetryFrom f sample is_retryable max_retries (attempt + 1)
        (rest.1, .attempt attempt ::
          .sleep (calculate_backoff attempt none (sample attempt)) :: rest.2)
      else (.exhausted e, [.attempt attempt])
    | _ =>
      if ¬ is_retryable e then (.raised e, [.attempt attempt])
      else if h : attempt < max_retries then
        let rest := withRetryFrom f sample is_retryable max_retries (attempt + 1)
        (rest.1, .attempt attempt ::
          .sleep (calculate_backoff attempt none (sample attempt)) :: rest.2)
      else (.exhausted e, [.attempt attempt])
termination_by max_retries - attempt
decreasing_by all_goals omega

/-- A whole `_with_retry` call starts at iteration 0. -/
def with_retry (f : ℕ → ReqOutcome) (sample : ℕ → ℚ)
    (is_retryable : ReqError → Bool) (max_retries : ℕ) :
    RetryResult × List RetryEvent :=
  withRetryFrom f sample is_retryable max_retries 0

/-! ## Theorem for claim C1 -/

/-- **C1, failing input.** The claim says a 4xx response other than 429
fails immediately with that error, with no retry and no backoff sleep.
But the retryable predicate passed by `get`/`post`/`get_json`/`get_text`
classifies every `aiohttp.ClientError` as retryable, and
`ClientResponseError` (the exception `raise_for_status()` raises for a
404) is a subclass of `ClientError`.  Concretely: a request whose first
attempt yields a 404 `ClientResponseError` and whose second attempt
succeeds does not raise the 404 at all — `_with_retry` sleeps
`_calculate_backoff(0) = 1` second (sample 0), retries, and returns
success after two attempts, contradicting the claim and the intent
documented in tests/unit/core/test_http_client.py
("4xx errors should fail immediately (no retry)"). -/
theorem with_retry_retries_non429_4xx :
    with_retry (fun i => if i = 0 then .err (.clientResponseError 404 none) else .ok)
        (fun _ => 0) defaultRetryable 3
      = (.success, [.attempt 0, .sleep 1, .attempt 1])
    ∧ (with_retry (fun i => if i = 0 then .err (.clientResponseError 404 none) else .ok)
        (fun _ => 0) defaultRetryable 3).1
        ≠ .raised (.clientResponseError 404 none)
    ∧ defaultRetryable (.clientResponseError 404 none) = true := by
  have h : with_retry (fun i => if i = 0 then .err (.clientResponseError 404 none) else .ok)
      (fun _ => 0) defaultRetryable 3
      = (.success, [.attempt 0, .sleep 1, .attempt 1]) := by
    rw [with_retry, withRetryFrom, withRetryFrom]
    norm_num [defaultRetryable, isClientError, isTimeoutError, calculate_backoff]
  refine ⟨h, ?_, rfl⟩
  rw [h]
  exact fun hc => RetryResult.noConfusion hc

/-! ## Theorems for claim C5 -/

/-- If every attempt up to and including `max_retries` yields a 429
with `Retry-After` hint `ra j`, `_with_retry` raises `RateLimitError`
carrying the hint of the last response. -/
theorem withRetryFrom_all429 (f : ℕ → ReqOutcome) (sample : ℕ → ℚ)
    (is_retryable : ReqError → Bool) (ra : ℕ → Option ℚ) (max_retries : ℕ) :
    ∀ (n i : ℕ), i + n = max_retries →
      (∀ j, i ≤ j → j ≤ max_retries → f j = .err (.clientResponseError 429 (ra j))) →
      (withRetryFrom f sample is_retryable max_retries i).1
        = .rateLimited (ra max_retries) := by
  intro n
  induction n with
  | zero =>
    intro i hi hf
    have hi' : i = max_retries := by omega
    subst hi'
    rw [withRetryFrom, hf i le_rfl le_rfl]
    simp
  | succ n ih =>
    intro i hi hf
    have hlt : i < max_retries := by omega
    rw [withRetryFrom, hf i le_rfl (by omega)]
    simp only [dif_pos hlt, if_pos rfl]
    exact ih (i + 1) (by omega) (fun j h1 h2 => hf j (by omega) h2)

/-- **C5.** Rate-limit handling of `_with_retry`:
(1) when attempt `i` (with budget left) yields a 429 carrying a
parseable `Retry-After` value `t`, the wrapper sleeps exactly
`min(t, 60)` seconds and proceeds to attempt `i+1`;
(2) absent the header, the backoff slept is the exponential
`min(2^i + sample·2^i, 60)`, which never exceeds 60 seconds;
(3) when every attempt yields a 429, the call fails with the distinct
`RateLimitError` carrying the `Retry-After` hint parsed from the last
response. -/
theorem with_retry_rate_limit (f : ℕ → ReqOutcome) (sample : ℕ → ℚ)
    (is_retryable : ReqError → Bool) (ra : ℕ → Option ℚ)
    (max_retries i : ℕ) (t : ℚ) :
    (f i = .err (.clientResponseError 429 (some t)) → i < max_retries →
      withRetryFrom f sample is_retryable max_retries i
        = ((withRetryFrom f sample is_retryable max_retries (i + 1)).1,
           .attempt i :: .sleep (min t 60) ::
             (withRetryFrom f sample is_retryable max_retries (i + 1)).2))
    ∧ calculate_backoff i none (sample i)
        = min (2 ^ i + sample i * 2 ^ i) 60
    ∧ calculate_backoff i none (sample i) ≤ 60
    ∧ ((∀ j, j ≤ max_retries → f j = .err (.clientResponseError 429 (ra j))) →
      (with_retry f sample is_retryable max_retries).1
        = .rateLimited (ra max_retries)) := by
  refine ⟨?_, rfl, min_le_right _ _, ?_⟩
  · intro hf hlt
    rw [withRetryFrom, hf]
    simp only [dif_pos hlt, if_pos rfl]
    rfl
  · intro hf
    exact withRetryFrom_all429 f sample is_retryable ra max_retries max_retries 0
      (by omega) (fun j _ h2 => hf j h2)

/-- Witness for `with_retry_rate_limit`: the spec scenario — a 429
response with `Retry-After: 2` makes the Transport wait exactly 2
seconds (not the exponential default) before its next attempt, and a
stream of 429s exhausts into `RateLimitError (some 2)`. -/
theorem with_retry_rate_limit_witness :
    ((fun (_ : ℕ) => ReqOutcome.err (.clientResponseError 429 (some 2))) 0
        = .err (.clientResponseError 429 (some 2)) ∧ 0 < 1)
    ∧ withRetryFrom (fun _ => .err (.clientResponseError 429 (some 2)))
        (fun _ => 0) defaultRetryable 1 0
      = ((withRetryFrom (fun _ => .err (.clientResponseError 429 (some 2)))
            (fun _ => 0) defaultRetryable 1 1).1,
         .attempt 0 :: .sleep (min 2 60) ::
           (withRetryFrom (fun _ => .err (.clientResponseError 429 (some 2)))
              (fun _ => 0) defaultRetryable 1 1).2)
    ∧ (with_retry (fun _ => .err (.clientResponseError 429 (some 2)))
        (fun _ => 0) defaultRetryable 1).1 = .rateLimited (some 2) := by
  refine ⟨⟨rfl, by norm_num⟩, ?_, ?_⟩
  · exact (with_retry_rate_limit (fun _ => .err (.clientResponseError 429 (some 2)))
      (fun _ => 0) defaultRetryable (fun _ => some 2) 1 0 2).1 rfl (by norm_num)
  · exact (with_retry_rate_limit (fun _ => .err (.clientResponseError 429 (some 2)))
      (fun _ => 0) defaultRetryable (fun _ => some 2) 1 0 2).2.2.2
      (fun j _ => rfl)

/-! ## DownloadManager outer retry loop (src/getit/core/manager.py) -/

/-- Outcome of one `downloader.download(task, on_progress)` attempt as
`DownloadManager.download_task` observes it: the returned boolean, and
— when it returned `False` — whether the task's progress status is
`CANCELLED`. -/
inductive AttemptOutcome where
  | success
  | failedAttempt
  | cancelledAttempt
deriving Repr, DecidableEq

/-- Result of `DownloadManager.download_task`
(`DownloadResult.succeeded` / `.cancelled` / `.failed`). -/
inductive MgrResult where
  | succeeded
  | cancelledResult
  | failedResult
deriving Repr, DecidableEq

/-- Observable events of one `download_task` call: download attempts,
`asyncio.sleep(2**attempt)` in seconds, the reset
`task.progress.status = DownloadStatus.PENDING` and the reset
`task.progress.error = None`. -/
inductive MgrEvent where
  | attempt (i : ℕ)
  | sleep (seconds : ℕ)
  | setStatusPending
  | clearError
deriving Repr, DecidableEq

/-- `DownloadManager.download_task`, unrolled from loop iteration
`attempt` (the loop runs `for attempt in range(task.max_retries + 1)`).
`f i` is the outcome of the `i`-th `downloader.download` attempt.
Source order on a failed, non-cancelled attempt with budget left:
`await asyncio.sleep(2**attempt)`, then
`task.progress.status = PENDING`, then `task.progress.error = None`. -/
def download_task_from (f : ℕ → AttemptOutcome) (max_retries attempt : ℕ) :
    MgrResult × List MgrEvent :=
  match f attempt with
  | .success => (.succeeded, [.attempt attempt])
  | .cancelledAttempt => (.cancelledResult, [.attempt attempt])
  | .failedAttempt =>
    if h : attempt < max_retries then
      let rest := download_task_from f max_retries (attempt + 1)
      (rest.1, .attempt attempt :: .sleep (2 ^ attempt) ::
        .setStatusPending :: .clearError :: rest.2)
    else (.failedResult, [.attempt attempt])
termination_by max_retries - attempt
decreasing_by omega

/-- A whole `download_task` call starts at iteration 0. -/
def download_task (f : ℕ → AttemptOutcome) (max_retries : ℕ) :
    MgrResult × List MgrEvent :=
  download_task_from f max_retries 0

/-- Number of download attempts recorded in a trace. -/
def countAttempts (trace : List MgrEvent) : ℕ :=
  (trace.filter fun e => match e with | .attempt _ => true | _ => false).length

/-- From iteration `i`, at most `max_retries + 1 - i` further attempts
are made. -/
theorem download_task_from_attempts (f : ℕ → AttemptOutcome) (max_retries : ℕ) :
    ∀ (n i : ℕ), i + n = max_retries →
      countAttempts (download_task_from f max_retries i).2 ≤ n + 1 := by
  intro n
  induction n with
  | zero =>
    intro i hi
    rw [download_task_from]
    cases hf : f i with
    | success => simp [countAttempts]
    | cancelledAttempt => simp [countAttempts]
    | failedAttempt =>
      have hge : ¬ i < max_retries := by omega
      simp [countAttempts, hge]
  | succ n ih =>
    intro i hi
    have hlt : i < max_retries := by omega
    rw [download_task_from]
    cases hf : f i with
    | success => simp [countAttempts]
    | cancelledAttempt => simp [countAttempts]
    | failedAttempt =>
      have hrec := ih (i + 1) (by omega)
      simp only [countAttempts, List.filter] at hrec ⊢
      simp only [dif_pos hlt, List.filter, List.length_cons]
      omega

/-- **C4.** For a task with maximum-retries bound `r`:
(1) `download_task` performs at most `r + 1` attempts in total;
(2) if the task's status is `CANCELLED` after attempt `i`, the call
returns the cancelled result immediately after that attempt — no sleep,
no reset and no further attempt follow, whatever budget remains;
(3) after a failed non-cancelled attempt `i` with budget left, the
manager sleeps `2^i` seconds, resets the progress status to `PENDING`
and clears the error, then makes attempt `i+1`;
(4) a failed attempt with no budget left yields the terminal failed
result. -/
theorem download_task_retry_policy (f : ℕ → AttemptOutcome) (r i : ℕ) :
    countAttempts (download_task f r).2 ≤ r + 1
    ∧ (f i = .cancelledAttempt →
        download_task_from f r i = (.cancelledResult, [.attempt i]))
    ∧ (f i = .failedAttempt → i < r →
        download_task_from f r i
          = ((download_task_from f r (i + 1)).1,
             .attempt i :: .sleep (2 ^ i) :: .setStatusPending :: .clearError ::
               (download_task_from f r (i + 1)).2))
    ∧ (f i = .failedAttempt → ¬ i < r →
        download_task_from f r i = (.failedResult, [.attempt i])) := by
  refine ⟨?_, ?_, ?_, ?_⟩
  · exact download_task_from_attempts f r r 0 (by omega)
  · intro hf
    rw [download_task_from, hf]
  · intro hf hlt
    rw [download_task_from, hf]
    simp only [dif_pos hlt]
  · intro hf hge
    rw [download_task_from, hf]
    simp only [dif_neg hge]

/-- Witness for `download_task_retry_policy`: with `r = 2` and the
outcome stream (failed, cancelled, …), the first failure sleeps 1
second and resets, and the second attempt's cancellation returns
immediately, leaving budget unused. -/
theorem download_task_retry_policy_witness :
    ((fun j => if j = 0 then AttemptOutcome.failedAttempt
        else AttemptOutcome.cancelledAttempt) 1 = .cancelledAttempt
      ∧ (fun j => if j = 0 then AttemptOutcome.failedAttempt
        else AttemptOutcome.cancelledAttempt) 0 = .failedAttempt ∧ 0 < 2)
    ∧ download_task_from (fun j => if j = 0 then AttemptOutcome.failedAttempt
        else AttemptOutcome.cancelledAttempt) 2 1
      = (.cancelledResult, [.attempt 1])
    ∧ countAttempts (download_task (fun j => if j = 0 then AttemptOutcome.failedAttempt
        else AttemptOutcome.cancelledAttempt) 2).2 ≤ 2 + 1 := by
  refine ⟨⟨rfl, rfl, by norm_num⟩, ?_, ?_⟩
  · exact (download_task_retry_policy (fun j => if j = 0 then AttemptOutcome.failedAttempt
      else AttemptOutcome.cancelledAttempt) 2 1).2.1 rfl
  · exact (download_task_retry_policy (fun j => if j = 0 then AttemptOutcome.failedAttempt
      else AttemptOutcome.cancelledAttempt) 2 0).1

/-! ## Filename sanitization (src/getit/utils/sanitize.py) -/

/-- Index of the last literal dot, at position `≥ 1`, inside the
newline-free segment at the head of `l`.  This is where a match of
Python's `re.sub(r"\\.+\.{1,2}", ...)` ends after the leftmost `\\`:
the greedy `.+` (which cannot cross a newline) backtracks until the
trailing `\.{1,2}` fits, so the match extends exactly to the last dot
of the line that leaves at least one character for `.+`. -/
def lastDotGe1 (l : List Char) : Option ℕ :=
  let line := l.takeWhile (fun x => x ≠ '\n')
  match line.reverse.findIdx? (fun x => x = '.') with
  | none => none
  | some k =>
    let j := line.length - 1 - k
    if 1 ≤ j then some j else none

/-- `PATH_TRAVERSAL_WINDOWS.sub("_", s)` with
`PATH_TRAVERSAL_WINDOWS = re.compile(r"\\.+\.{1,2}")`: replace each
leftmost non-overlapping match — a backslash, one or more non-newline
characters, then one or two dots — by a single underscore.  `fuel`
bounds the recursion depth; `fuel = l.length` always suffices since
every step consumes at least one character. -/
def winTraversalSubAux : ℕ → List Char → List Char
  | 0, l => l
  | _ + 1, [] => []
  | fuel + 1, c :: t =>
    if c = '\\' then
      match lastDotGe1 t with
      | some j => '_' :: winTraversalSubAux fuel (t.drop (j + 1))
      | none => c :: winTraversalSubAux fuel t
    else c :: winTraversalSubAux fuel t

/-- Entry point of the Windows path-traversal substitution. -/
def winTraversalSub (l : List Char) : List Char :=
  winTraversalSubAux l.length l

/-- `PATH_TRAVERSAL_LINUX.sub("_", s)` with
`PATH_TRAVERSAL_LINUX = re.compile(r"/\.{1,2}")`: replace each
leftmost non-overlapping occurrence of a slash followed by one or two
dots (greedily two) by a single underscore. -/
def linuxTraversalSub : List Char → List Char
  | [] => []
  | '/' :: '.' :: '.' :: rest => '_' :: linuxTraversalSub rest
  | '/' :: '.' :: rest => '_' :: linuxTraversalSub rest
  | c :: rest => c :: linuxTraversalSub rest

/-- The character class of `INVALID_CHARS = re.compile(r'[:*?"<>|]')`. -/
def isInvalidChar (c : Char) : Bool :=
  c = ':' ∨ c = '*' ∨ c = '?' ∨ c = '"' ∨ c = '<' ∨ c = '>' ∨ c = '|'

/-- Step 5a of the source: if the name matches
`ABSOLUTE_PATH_WINDOWS = re.compile(r"^[A-Za-z]:\\")` then
`filename = filename[2:]` (drop the drive letter and the colon). -/
def absWindowsDrop (l : List Char) : List Char :=
  match l with
  | a :: ':' :: '\\' :: _ => if a.isAlpha then l.drop 2 else l
  | _ => l

/-- Step 5b of the source:
`ABSOLUTE_PATH_LINUX.sub("_", filename)` with pattern `^/` — at most
the single leading slash is replaced. -/
def absLinuxSub : List Char → List Char
  | '/' :: rest => '_' :: rest
  | l => l

/-- `sanitize_filename(filename)` (src/getit/utils/sanitize.py), in
source order: empty input returns `""`; remove null bytes; replace
every `/` and `\` by `_`; apply the two traversal-pattern
substitutions; replace the invalid characters `:*?"<>|` by `_`;
handle absolute paths; truncate to 255 characters. -/
def sanitize_filename (s : String) : String :=
  if s = "" then ""
  else
    let l0 := s.toList
    let l1 := l0.filter (fun c => c ≠ '\x00')
    let l2 := l1.map (fun c => if c = '/' ∨ c = '\\' then '_' else c)
    let l3 := winTraversalSub l2
    let l4 := linuxTraversalSub l3
    let l5 := l4.map (fun c => if isInvalidChar c then '_' else c)
    let l6 := absWindowsDrop l5
    let l7 := absLinuxSub l6
    String.mk (l7.take 255)

/-! ## Theorem for claim C10 -/

/-- **C10, failing input.** The claim (with the module's own docstring
and tests/security/test_filename_sanitization.py) says the result
contains no path-traversal sequences; the docstring example states
`sanitize_filename("../../etc/passwd") == '__etc_passwd'`.  In fact the
separators are replaced by underscores *before* the traversal regexes
run, and both traversal patterns require a separator character, so they
can never match: the code returns `".._.._etc_passwd"` (keeping every
`..`), and the bare traversal name `".."` is returned entirely
unchanged — joined to a directory it still names the parent. -/
theorem sanitize_filename_keeps_traversal_dots :
    sanitize_filename "../../etc/passwd" = ".._.._etc_passwd"
    ∧ sanitize_filename "../../etc/passwd" ≠ "__etc_passwd"
    ∧ sanitize_filename ".." = ".."
    ∧ sanitize_filename "..." = "..."
    ∧ sanitize_filename "..." ≠ "___" := by
  refine ⟨by decide, by decide, by decide, by decide, by decide⟩

/-! ## DownloadManager.create_task path allocation (src/getit/core/manager.py) -/

/-- Index of the last dot of a path component (`str.rfind('.')`). -/
def rfindDot (l : List Char) : Option ℕ :=
  match l.reverse.findIdx? (fun c => c = '.') with
  | none => none
  | some k => some (l.length - 1 - k)

/-- `pathlib.PurePath.suffix` of a single component: `name[i:]` when the
last dot sits strictly inside the name (`0 < i < len - 1`), else `""`. -/
def pySuffix (name : String) : String :=
  let l := name.toList
  match rfindDot l with
  | some i => if 0 < i ∧ i < l.length - 1 then String.mk (l.drop i) else ""
  | none => ""

/-- `pathlib.PurePath.stem` of a single component: `name[:i]` when the
last dot sits strictly inside the name, else the whole name. -/
def pyStem (name : String) : String :=
  let l := name.toList
  match rfindDot l with
  | some i => if 0 < i ∧ i < l.length - 1 then String.mk (l.take i) else name
  | none => name

/-- `target_dir / name` for a separator-free component. -/
def joinPath (dir name : String) : String := dir ++ "/" ++ name

/-- The `while output_path.exists()` collision loop of `create_task`:
starting from `counter = 1`, while the candidate is on the filesystem
`fs`, try `f"{original_stem}_{counter}{original_suffix}"` and increment.
`fuel` bounds the iterations; `fs.length + 1` suffices because the
candidates for distinct counters are distinct names. -/
def allocateAux (fs : List String) (dir stem suf : String) :
    ℕ → ℕ → String → String
  | 0, _, path => path
  | fuel + 1, counter, path =>
    if fs.contains path then
      allocateAux fs dir stem suf fuel (counter + 1)
        (joinPath dir (stem ++ "_" ++ toString counter ++ suf))
    else path

/-- Path allocation of `DownloadManager.create_task`: sanitize the
filename, join it to the target directory, then run the collision
loop against the set `fs` of paths existing on the filesystem.
(`file_info.parent_folder`, when present, is appended to the directory
before this; the claims use a plain directory.)  The check consults
only the filesystem: the path is not recorded anywhere, and no file is
created at it. -/
def create_task_path (fs : List String) (dir filename : String) : String :=
  let name := sanitize_filename filename
  allocateAux fs dir (pyStem name) (pySuffix name) (fs.length + 1) 1
    (joinPath dir name)

/-! ## Theorem for claim C3 -/

/-- **C3, failing input.** Scheduling tasks only checks
`output_path.exists()` against the filesystem; `create_task` neither
creates the file nor records the path it handed out, so concurrently
scheduled tasks all see the same filesystem state.  With
`test_file.txt` absent from the directory, all ten tasks of
tests/security/test_toctou_race.py's scenario receive the *identical*
output path — the allocation is not race-safe and a later download
overwrites its siblings' file, contradicting the claim and the test's
assertion that all paths be unique.  The numeric-suffix loop itself
does work against paths already on disk (last two conjuncts). -/
theorem create_task_concurrent_same_name_collision :
    create_task_path [] "/downloads" "test_file.txt" = "/downloads/test_file.txt"
    ∧ (List.replicate 10 "test_file.txt").map (create_task_path [] "/downloads")
        = List.replicate 10 "/downloads/test_file.txt"
    ∧ ¬ ((List.replicate 10 "test_file.txt").map
          (create_task_path [] "/downloads")).Nodup
    ∧ create_task_path ["/downloads/test_file.txt"] "/downloads" "test_file.txt"
        = "/downloads/test_file_1.txt"
    ∧ create_task_path ["/downloads/test_file.txt", "/downloads/test_file_1.txt"]
        "/downloads" "test_file.txt" = "/downloads/test_file_2.txt" := by
  refine ⟨by decide, by decide, by decide, by decide, by decide⟩

/-! ## TaskRegistry (src/getit/tasks.py) -/

/-- `TaskStatus` enumeration of src/getit/tasks.py. -/
inductive TaskStatus where
  | pending
  | extracting
  | downloading
  | completed
  | failed
  | cancelled
deriving Repr, DecidableEq

/-- One persisted row of the `tasks` table (`TaskInfo`): id, URL,
output directory, status, progress snapshot, error text and
created/updated timestamps.  ISO-8601 strings from one clock compare
like the instants they denote, so timestamps are embedded as numbers
whose order is the stored strings' order. -/
structure TaskInfoRow where
  task_id : String
  url : String
  output_dir : String
  status : TaskStatus
  progress : List (String × ℚ)
  error : Option String
  created_at : ℕ
  updated_at : ℕ
deriving Repr, DecidableEq

/-- Status is one of the three the `list_active` query excludes
(`WHERE status NOT IN (completed, failed, cancelled)`). -/
def isTerminalStatus (s : TaskStatus) : Bool :=
  s = .completed ∨ s = .failed ∨ s = .cancelled

/-- `TaskRegistry.list_active()` over the store contents:
`SELECT * FROM tasks WHERE status NOT IN (?, ?, ?) ORDER BY created_at
ASC` with the completed/failed/cancelled values bound. -/
def list_active (rows : List TaskInfoRow) : List TaskInfoRow :=
  (rows.filter fun t => ! isTerminalStatus t.status).mergeSort
    (fun a b => a.created_at ≤ b.created_at)

/-- The SQL statements `TaskRegistry.connect` and the history store's
connect execute, abstracted to the shapes that occur in the two
modules: PRAGMA configuration, `CREATE TABLE IF NOT EXISTS`,
`CREATE INDEX IF NOT EXISTS`, and the history store's
`INSERT INTO schema_versions (version) VALUES (?)`. -/
inductive SqlStmt where
  | pragmaStmt (name value : String)
  | createTable (name : String) (columns : List String)
  | createIndex (idxName tableName : String)
  | insertSchemaVersion (version : ℕ)
deriving Repr, DecidableEq

/-- `TaskRegistry._configure_pragmas`. -/
def taskRegistry_configure_pragmas : List SqlStmt :=
  [.pragmaStmt "journal_mode" "WAL",
   .pragmaStmt "synchronous" "NORMAL",
   .pragmaStmt "busy_timeout" "30000",
   .pragmaStmt "foreign_keys" "ON"]

/-- `TaskRegistry._create_tables`: the `tasks` table and its two
indexes. -/
def taskRegistry_create_tables : List SqlStmt :=
  [.createTable "tasks"
     ["task_id", "url", "output_dir", "status", "progress", "error",
      "created_at", "updated_at"],
   .createIndex "idx_tasks_status" "tasks",
   .createIndex "idx_tasks_created_at" "tasks"]

/-- Everything `TaskRegistry.connect` executes against the store after
opening it: `_configure_pragmas()` then `_create_tables()`. -/
def taskRegistry_connect_statements : List SqlStmt :=
  taskRegistry_configure_pragmas ++ taskRegistry_create_tables

/-- `_ensure_schema_version` of the download-history store
(src/getit/storage/history.py, `CURRENT_SCHEMA_VERSION = 1`), run by
*its* connect after creating its tables: the `schema_versions` table
and the insertion of the current version. -/
def history_ensure_schema_version : List SqlStmt :=
  [.createTable "schema_versions" ["version", "applied_at"],
   .insertSchemaVersion 1]

/-- A statement list records a schema-version marker when it creates a
schema-version table or inserts a version row. -/
def recordsSchemaVersion (stmts : List SqlStmt) : Bool :=
  stmts.any fun s =>
    match s with
    | .insertSchemaVersion _ => true
    | .createTable n _ => n = "schema_versions"
    | _ => false

/-! ## Theorems for claim C8 -/

/-- **C8, counterexample.** `TaskRegistry.connect` records no
schema-version marker in its store: none of the statements it executes
creates a version table or inserts a version row. -/
theorem taskRegistry_connect_no_schema_version :
    recordsSchemaVersion taskRegistry_connect_statements = false := by
  decide

/-- **C8, amended.** `TaskRegistry.connect` only configures pragmas and
creates the `tasks` table with its two indexes; it records no
schema-version marker.  A schema-version marker is recorded at connect
time only by the download-history store, whose
`_ensure_schema_version` creates the `schema_versions` table and
inserts the current version. -/
theorem taskRegistry_schema_version_only_in_history :
    taskRegistry_connect_statements
      = taskRegistry_configure_pragmas ++ taskRegistry_create_tables
    ∧ recordsSchemaVersion taskRegistry_connect_statements = false
    ∧ recordsSchemaVersion history_ensure_schema_version = true := by
  exact ⟨rfl, by decide, by decide⟩

/-! ## Theorem for claim C9 -/

/-- **C9.** `list_active()` returns exactly the stored tasks whose
status is not COMPLETED, FAILED or CANCELLED — as a multiset it is a
permutation of that filter, so in particular no returned task carries
one of the three terminal statuses — and the returned tasks are sorted
by creation time ascending. -/
theorem list_active_spec (rows : List TaskInfoRow) :
    (∀ t ∈ list_active rows,
        t.status ≠ .completed ∧ t.status ≠ .failed ∧ t.status ≠ .cancelled)
    ∧ (list_active rows).Perm
        (rows.filter fun t => ! isTerminalStatus t.status)
    ∧ (∀ t ∈ rows, ¬ isTerminalStatus t.status → t ∈ list_active rows)
    ∧ List.Sorted (fun a b : TaskInfoRow => a.created_at ≤ b.created_at)
        (list_active rows) := by
  have hperm : (list_active rows).Perm
      (rows.filter fun t => ! isTerminalStatus t.status) :=
    List.mergeSort_perm _ _
  refine ⟨?_, hperm, ?_, ?_⟩
  · intro t ht
    have hmem := hperm.mem_iff.mp ht
    have hfilter := List.of_mem_filter hmem
    simp only [isTerminalStatus, Bool.not_eq_true', decide_eq_false_iff_not] at hfilter
    push_neg at hfilter
    simpa [decide_eq_true_eq] using hfilter
  · intro t ht hterm
    refine hperm.mem_iff.mpr ?_
    refine List.mem_filter.mpr ⟨ht, ?_⟩
    simpa using hterm
  · have hsorted := @List.sorted_mergeSort TaskInfoRow
      (fun a b : TaskInfoRow => decide (a.created_at ≤ b.created_at))
      (fun a b c hab hbc => by
        simp only [decide_eq_true_eq] at hab hbc ⊢
        exact le_trans hab hbc)
      (fun a b => by
        simp only [Bool.or_eq_true, decide_eq_true_eq]
        exact Nat.le_total a.created_at b.created_at)
      (rows.filter fun t => ! isTerminalStatus t.status)
    refine List.Pairwise.imp ?_ hsorted
    intro a b hab
    simpa using hab

/-- Witness for `list_active_spec` at a concrete three-row store: the
completed row is dropped, the two active rows come back ordered by
creation time. -/
theorem list_active_spec_witness :
    list_active
        [⟨"b", "u2", "d", .downloading, [], none, 20, 20⟩,
         ⟨"a", "u1", "d", .completed, [], none, 5, 6⟩,
         ⟨"c", "u3", "d", .pending, [], some "e", 10, 11⟩]
      = [⟨"c", "u3", "d", .pending, [], some "e", 10, 11⟩,
         ⟨"b", "u2", "d", .downloading, [], none, 20, 20⟩]
    ∧ (∀ t ∈ list_active
        [⟨"b", "u2", "d", .downloading, [], none, 20, 20⟩,
         ⟨"a", "u1", "d", .completed, [], none, 5, 6⟩,
         ⟨"c", "u3", "d", .pending, [], some "e", 10, 11⟩],
        t.status ≠ .completed ∧ t.status ≠ .failed ∧ t.status ≠ .cancelled) := by
  refine ⟨by simp [list_active, List.mergeSort, isTerminalStatus], ?_⟩
  exact (list_active_spec
    [⟨"b", "u2", "d", .downloading, [], none, 20, 20⟩,
     ⟨"a", "u1", "d", .completed, [], none, 5, 6⟩,
     ⟨"c", "u3", "d", .pending, [], some "e", 10, 11⟩]).1

/-! ## Counter-mode decryption of resumed encrypted streams -/

/-- `FileInfo` (src/getit/extractors/base.py): the descriptor extractors
produce and the core consumes.  Byte strings are lists of byte values;
dicts are association lists. -/
structure FileInfo where
  url : String
  filename : String
  size : ℕ := 0
  direct_url : Option String := none
  headers : List (String × String) := []
  cookies : List (String × String) := []
  password_protected : Bool := false
  checksum : Option String := none
  checksum_type : Option String := none
  parent_folder : Option String := none
  extractor_name : String := ""
  encryption_key : Option (List ℕ) := none
  encryption_iv : Option (List ℕ) := none
  encrypted : Bool := false
deriving Repr, DecidableEq

/-- `a32_to_str(a)` (src/getit/extractors/mega.py):
`struct.pack(f">{len(a)}I", *a)` — each 32-bit word becomes four
big-endian bytes.  (`struct.pack` raises for words `≥ 2^32`; on
in-range words the embedding agrees.) -/
def a32_to_str (a : List ℕ) : List ℕ :=
  a.flatMap fun w => [w / 2 ^ 24 % 256, w / 2 ^ 16 % 256, w / 2 ^ 8 % 256, w % 256]

/-- `MegaExtractor._build_encryption_params(key)`
(src/getit/extractors/mega.py): AES key `a32_to_str(key[:4])` and IV
`a32_to_str([key[4], key[5], 0, 0])` from the 8-int key array;
indexing raises when the array is shorter than six words. -/
def mega_build_encryption_params (key : List ℕ) : Option (List ℕ × List ℕ) :=
  match key[4]?, key[5]? with
  | some k4, some k5 => some (a32_to_str (key.take 4), a32_to_str [k4, k5, 0, 0])
  | _, _ => none

/-- Modelled from the spec: the `FileDownloader` module
(`getit.core.downloader`, imported by src/getit/core/manager.py) is not
present in the source tree, so its decryption of encrypted streams is
modelled from §4.3 of the specification: "construct a counter-mode
stream cipher from the supplied key and IV, with the counter offset
derived from `downloaded / blockSize` at stream start" and "decrypt
each chunk before it is written to disk".  `E i` is the keystream
block for counter value `i` (for Mega, AES-ECB under the FileInfo key
applied to the block built from the FileInfo IV and `i`); `keystream E
c n` is the concatenation of the `n` blocks starting at counter `c`. -/
def keystream (E : ℕ → List ℕ) (counter : ℕ) : ℕ → List ℕ
  | 0 => []
  | n + 1 => E counter ++ keystream E (counter + 1) n

/-- Modelled from the spec (see `keystream`): counter-mode decryption
of a ciphertext stream resumed at counter offset `counterOffset`:
XOR the stream against the keystream blocks from that counter on,
using as many blocks as the stream needs. -/
def ctr_decrypt (E : ℕ → List ℕ) (blockSize counterOffset : ℕ)
    (cipher : List ℕ) : List ℕ :=
  List.zipWith Nat.xor cipher
    (keystream E counterOffset ((cipher.length + blockSize - 1) / blockSize))

theorem keystream_length (E : ℕ → List ℕ) (B : ℕ)
    (hE : ∀ i, (E i).length = B) :
    ∀ (n c : ℕ), (keystream E c n).length = n * B := by
  intro n
  induction n with
  | zero => intro c; simp [keystream]
  | succ n ih =>
    intro c
    simp [keystream, hE, ih, Nat.succ_mul, Nat.add_comm]

theorem keystream_add (E : ℕ → List ℕ) (n : ℕ) :
    ∀ (m c : ℕ), keystream E c (m + n) = keystream E c m ++ keystream E (c + m) n := by
  intro m
  induction m with
  | zero => intro c; simp [keystream]
  | succ m ih =>
    intro c
    have h : m + 1 + n = (m + n) + 1 := by omega
    rw [h, keystream, keystream, ih (c + 1), List.append_assoc,
      Nat.add_right_comm c 1 m, ← Nat.add_assoc c m 1]

theorem zipWith_trunc (f : ℕ → ℕ → ℕ) :
    ∀ (l a b : List ℕ), l.length ≤ a.length →
      List.zipWith f l (a ++ b) = List.zipWith f l a := by
  intro l
  induction l with
  | nil => intro a b _; simp
  | cons x xs ih =>
    intro a b hlen
    cases a with
    | nil => simp at hlen
    | cons y ys =>
      simp only [List.cons_append, List.zipWith_cons_cons]
      rw [ih ys b (by simpa using hlen)]

/-- XOR-ing a stream against `n` keystream blocks equals XOR-ing it
against `m ≥ n` blocks when `n` blocks already cover the stream. -/
theorem zip_keystream_congr (E : ℕ → List ℕ) (B : ℕ)
    (hE : ∀ i, (E i).length = B) (l : List ℕ) (k n m : ℕ)
    (hnm : n ≤ m) (hcov : l.length ≤ n * B) :
    List.zipWith Nat.xor l (keystream E k m)
      = List.zipWith Nat.xor l (keystream E k n) := by
  have hm : m = n + (m - n) := by omega
  rw [hm, keystream_add]
  exact zipWith_trunc Nat.xor l _ _ (by rw [keystream_length E B hE]; exact hcov)

/-- `L ≤ ⌈L / B⌉ * B` for the ceiling the decryptor uses to count
blocks. -/
theorem le_ceil_mul {B : ℕ} (hB : 0 < B) (L : ℕ) :
    L ≤ (L + B - 1) / B * B := by
  have h1 := Nat.div_add_mod (L + B - 1) B
  have h2 : (L + B - 1) % B < B := Nat.mod_lt _ hB
  rw [Nat.mul_comm]
  omega

/-! ## Theorem for claim C2 -/

/-- **C2.** Counter continuity of resumed decryption: for every
encrypted `FileInfo` carrying key and IV, every block cipher keystream
`E` built from that key and IV (blocks of the cipher's block size
`B > 0`), every ciphertext stream `s` and every resume offset `N` that
is a multiple of `B`: decrypting the stream resumed from byte `N` with
the counter offset initialised to `N / B` yields exactly the bytes
from position `N` onward of decrypting the full stream from the start,
`(decrypt(fullStream))[N:] = decrypt(streamFrom(N), counterOffset=N/B)`. -/
theorem ctr_decrypt_resume (fi : FileInfo) (key iv : List ℕ)
    (henc : fi.encrypted = true)
    (hk : fi.encryption_key = some key) (hiv : fi.encryption_iv = some iv)
    (E : List ℕ → List ℕ → ℕ → List ℕ) (B : ℕ) (hB : 0 < B)
    (hE : ∀ i, (E key iv i).length = B)
    (s : List ℕ) (N k : ℕ) (hN : N = k * B) :
    (ctr_decrypt (E key iv) B 0 s).drop N
      = ctr_decrypt (E key iv) B (N / B) (s.drop N) := by
  have hNdiv : N / B = k := by rw [hN]; exact Nat.mul_div_cancel k hB
  subst hN
  rw [hNdiv]
  set e := E key iv with he
  set L := s.length with hL
  set n0 := (L + B - 1) / B with hn0
  have hLcov : L ≤ n0 * B := le_ceil_mul hB L
  rw [ctr_decrypt, ctr_decrypt, List.drop_zipWith]
  have hdroplen : (s.drop (k * B)).length = L - k * B := by
    simp [hL]
  by_cases hk0 : k ≤ n0
  · -- the dropped keystream continues at counter k
    have hsplit : keystream e 0 n0 = keystream e 0 k ++ keystream e k (n0 - k) := by
      have : n0 = k + (n0 - k) := by omega
      rw [this, keystream_add]
      simp
    have hdrop : (keystream e 0 n0).drop (k * B) = keystream e k (n0 - k) := by
      rw [hsplit, List.drop_left' (by rw [keystream_length e B hE])]
    rw [hdrop]
    have hcov1 : (s.drop (k * B)).length ≤ (n0 - k) * B := by
      rw [hdroplen, Nat.sub_mul]
      exact Nat.sub_le_sub_right hLcov _
    have hcov2 : (s.drop (k * B)).length
        ≤ ((s.drop (k * B)).length + B - 1) / B * B := le_ceil_mul hB _
    by_cases hord : ((s.drop (k * B)).length + B - 1) / B ≤ n0 - k
    · rw [zip_keystream_congr e B hE _ k _ (n0 - k) hord hcov2]
    · exact (zip_keystream_congr e B hE _ k (n0 - k)
        (((s.drop (k * B)).length + B - 1) / B) (by omega) hcov1).symm
  · -- the resume offset lies past every block the full stream needs
    have hnil : s.drop (k * B) = [] := by
      rw [List.drop_eq_nil_iff]
      calc L ≤ n0 * B := hLcov
        _ ≤ k * B := Nat.mul_le_mul_right B (by omega)
    rw [hnil]
    simp

/-- Witness for `ctr_decrypt_resume`: key and IV produced by
`MegaExtractor._build_encryption_params` from an 8-word key array, a
keystream with 4-byte blocks, a 10-byte stream resumed at byte `N = 8`
(counter offset `8 / 4 = 2`). -/
theorem ctr_decrypt_resume_witness :
    mega_build_encryption_params [1, 2, 3, 4, 5, 6, 7, 8]
      = some ([0, 0, 0, 1, 0, 0, 0, 2, 0, 0, 0, 3, 0, 0, 0, 4],
              [0, 0, 0, 5, 0, 0, 0, 6, 0, 0, 0, 0, 0, 0, 0, 0])
    ∧ (ctr_decrypt
          ((fun (_ _ : List ℕ) (i : ℕ) => [i % 256, 7, 11, 13])
            [0, 0, 0, 1, 0, 0, 0, 2, 0, 0, 0, 3, 0, 0, 0, 4]
            [0, 0, 0, 5, 0, 0, 0, 6, 0, 0, 0, 0, 0, 0, 0, 0])
          4 0 [10, 20, 30, 40, 50, 60, 70, 80, 90, 100]).drop 8
        = ctr_decrypt
            ((fun (_ _ : List ℕ) (i : ℕ) => [i % 256, 7, 11, 13])
              [0, 0, 0, 1, 0, 0, 0, 2, 0, 0, 0, 3, 0, 0, 0, 4]
              [0, 0, 0, 5, 0, 0, 0, 6, 0, 0, 0, 0, 0, 0, 0, 0])
            4 (8 / 4) ([10, 20, 30, 40, 50, 60, 70, 80, 90, 100].drop 8) := by
  refine ⟨by decide, ?_⟩
  exact ctr_decrypt_resume
    { url := "https://mega.nz/file/x", filename := "f.bin",
      encryption_key := some [0, 0, 0, 1, 0, 0, 0, 2, 0, 0, 0, 3, 0, 0, 0, 4],
      encryption_iv := some [0, 0, 0, 5, 0, 0, 0, 6, 0, 0, 0, 0, 0, 0, 0, 0],
      encrypted := true }
    [0, 0, 0, 1, 0, 0, 0, 2, 0, 0, 0, 3, 0, 0, 0, 4]
    [0, 0, 0, 5, 0, 0, 0, 6, 0, 0, 0, 0, 0, 0, 0, 0]
    rfl rfl rfl
    (fun _ _ i => [i % 256, 7, 11, 13]) 4 (by norm_num)
    (fun i => rfl)
    [10, 20, 30, 40, 50, 60, 70, 80, 90, 100] 8 2 (by norm_num)

end Getit
